import Mathlib

/-!
Verification of the kCSD 2D estimator (KCSD2D.py) against its specification.

The Python source is shallowly embedded in Lean: floating-point values are
modelled as exact rationals (`ℚ`), except where the source genuinely produces
irrational reals (`np.linalg.norm`'s square root, `np.logspace`'s powers of
ten), which are modelled in `ℝ`.  Fallible operations are modelled with
`Except`.  External library calls (numpy/scipy) and repository files not
present under `src/` (`CSD.py`, `utility_functions.py`, `basis_functions.py`)
are modelled from the specification where their behaviour decides a claim;
each such definition carries a doc comment saying so.
-/

open scoped Matrix

namespace KCSD2D

/-- Runtime failures surfaced by the embedded code.
`linAlgError` models `numpy.linalg.LinAlgError` (raised by `np.linalg.inv` /
`np.matrix.I` on an exactly singular matrix, in this exact-arithmetic model);
`unboundLocal` models Python's `UnboundLocalError` (a local variable read
before assignment); `configurationError` models the `Exception` raised by
`place_basis` for an unknown basis name; `valueError` models the error numpy
raises when reducing an empty array (`np.min` of empty `ele_pos`). -/
inductive PyErr where
  | linAlgError
  | unboundLocal
  | configurationError
  | valueError
deriving DecidableEq, Repr

/-- `np.round` on an exact rational: round half to even (banker's rounding),
which is numpy's rounding mode.  Away from exact halves this agrees with
Mathlib's `round` (round half up). -/
def npRound (q : ℚ) : ℤ :=
  if q - ⌊q⌋ = 1/2 then (if 2 ∣ ⌊q⌋ then ⌊q⌋ else ⌊q⌋ + 1) else round q

/-- `np.uint16(np.round q)`: the rounded value reduced modulo `2^16`, which is
how the C cast of the (integral) float to a 16-bit unsigned integer behaves. -/
def npUint16Round (q : ℚ) : ℕ :=
  ((npRound q) % 65536).toNat

/-- Index computed by `KCSD2D.generated_potential` (lines 344-346):
`indices = np.uint16(np.round(dt_len * dist / dist_max))` followed by
`ind = np.maximum(0, np.minimum(indices, dt_len - 1))`. -/
def generatedPotentialIdx (dt_len : ℕ) (dist_max dist : ℚ) : ℕ :=
  max 0 (min (npUint16Round (dt_len * dist / dist_max)) (dt_len - 1))

/-- `KCSD2D.generated_potential` (lines 331-348): nearest-bucket lookup of the
distance table at a given distance.  `dist_table` is the dense lookup table
(`self.dist_table`), `dist_max` is `self.dist_max`. -/
def generated_potential (dist_table : List ℚ) (dist_max : ℚ) (dist : ℚ) : ℚ :=
  dist_table.getD (generatedPotentialIdx dist_table.length dist_max dist) 0

/-- The index the specification claims `generated_potential` uses:
`round(dist_table_density * d / dist_max)` clamped to
`[0, dist_table_density - 1]`, with no 16-bit wrap-around. -/
def specLookupIdx (dt_len : ℕ) (dist_max dist : ℚ) : ℕ :=
  max 0 (min (npRound (dt_len * dist / dist_max)).toNat (dt_len - 1))

/-- The lookup the specification describes (table value at `specLookupIdx`). -/
def specLookup (dist_table : List ℚ) (dist_max : ℚ) (dist : ℚ) : ℚ :=
  dist_table.getD (specLookupIdx dist_table.length dist_max dist) 0

lemma floor_le_npRound (q : ℚ) : ⌊q⌋ ≤ npRound q := by
  unfold npRound
  split
  · split
    · exact le_refl _
    · exact le_of_lt (lt_add_one _)
  · rw [round_eq]
    exact Int.le_floor.2 (by linarith [Int.floor_le q])

lemma npRound_nonneg {q : ℚ} (hq : 0 ≤ q) : 0 ≤ npRound q :=
  le_trans (Int.le_floor.2 (by exact_mod_cast hq)) (floor_le_npRound q)

lemma npRound_intCast (n : ℤ) : npRound (n : ℚ) = n := by
  unfold npRound
  rw [Int.floor_intCast]
  rw [if_neg (by norm_num)]
  exact round_intCast n

lemma npRound_zero : npRound 0 = 0 := by
  have h := npRound_intCast 0
  simpa using h

/-- C3 (amended): for every non-negative distance `d`, `generated_potential`
looks the table up at index `(round(dt_len * d / dist_max) mod 2^16)` clamped
to `[0, dt_len - 1]` — the uint16 cast reduces the rounded value modulo
`2^16` before clamping.  In particular the lookup at `d = 0` returns the
first bucket, the lookup at `d ≥ dist_max` returns the last bucket provided
the rounded scaled distance is below `2^16`, and the table access is always
in range. -/
theorem generated_potential_clamps (dist_table : List ℚ) (dist_max dist : ℚ)
    (hT : dist_table ≠ []) (hmax : 0 < dist_max) (hd : 0 ≤ dist) :
    generatedPotentialIdx dist_table.length dist_max dist < dist_table.length ∧
    (dist = 0 →
      generated_potential dist_table dist_max dist = dist_table.getD 0 0) ∧
    (dist_max ≤ dist →
      npRound (dist_table.length * dist / dist_max) < 65536 →
      generated_potential dist_table dist_max dist =
        dist_table.getD (dist_table.length - 1) 0) := by
  have hlen : 0 < dist_table.length := List.length_pos.2 hT
  refine ⟨?_, ?_, ?_⟩
  · unfold generatedPotentialIdx
    calc max 0 (min (npUint16Round (dist_table.length * dist / dist_max))
          (dist_table.length - 1))
        ≤ dist_table.length - 1 := by
          rw [Nat.zero_max]; exact min_le_right _ _
      _ < dist_table.length := Nat.sub_lt hlen one_pos
  · intro h0
    subst h0
    unfold generated_potential generatedPotentialIdx npUint16Round
    rw [mul_zero, zero_div, npRound_zero]
    simp
  · intro hge hlt
    have hq0 : 0 ≤ (dist_table.length : ℚ) * dist / dist_max :=
      div_nonneg (mul_nonneg (by positivity) hd) (le_of_lt hmax)
    have hqlen : (dist_table.length : ℚ) ≤ dist_table.length * dist / dist_max := by
      rw [le_div_iff₀ hmax]
      exact mul_le_mul_of_nonneg_left hge (by positivity)
    have hr0 : 0 ≤ npRound (dist_table.length * dist / dist_max) :=
      npRound_nonneg hq0
    have hrlen : (dist_table.length : ℤ) ≤
        npRound (dist_table.length * dist / dist_max) :=
      le_trans (Int.le_floor.2 (by exact_mod_cast hqlen))
        (floor_le_npRound _)
    unfold generated_potential generatedPotentialIdx npUint16Round
    rw [Int.emod_eq_of_lt hr0 hlt]
    have hnat : dist_table.length ≤
        (npRound (dist_table.length * dist / dist_max)).toNat := by
      omega
    rw [Nat.zero_max, min_eq_right (by omega)]

/-- Concrete distance table used to exhibit the 16-bit wrap-around in
`generated_potential`. -/
def exampleTable : List ℚ := [10, 20, 30, 40]

/-- C3 counterexample: with a 4-bucket table and `dist_max = 1`, querying at
distance `16384` makes `dt_len * d / dist_max = 65536`, whose uint16 cast
wraps to index `0`: the code returns the FIRST bucket (10), while the
specified clamped index `min(65536, 3) = 3` would return the last bucket
(40).  So the claimed index formula (plain round-then-clamp, and in
particular "`d ≥ dist_max` returns the last bucket") is false. -/
theorem generated_potential_wrap_counterexample :
    generated_potential exampleTable 1 16384 = 10 ∧
    specLookup exampleTable 1 16384 = 40 ∧ (10 : ℚ) ≠ 40 := by
  have hlen : exampleTable.length = 4 := rfl
  have hq : ((exampleTable.length : ℚ)) * 16384 / 1 = ((65536 : ℤ) : ℚ) := by
    rw [hlen]; norm_num
  refine ⟨?_, ?_, by norm_num⟩
  · unfold generated_potential generatedPotentialIdx npUint16Round
    rw [hq, npRound_intCast, hlen]
    rfl
  · unfold specLookup specLookupIdx
    rw [hq, npRound_intCast, hlen]
    rfl

/-- Witness for the amended C3 theorem at a concrete table and distance. -/
theorem generated_potential_clamps_witness :
    exampleTable ≠ [] ∧ (0 : ℚ) < 1 ∧ (0 : ℚ) ≤ 2 ∧
    (generatedPotentialIdx exampleTable.length 1 2 < exampleTable.length ∧
     ((2 : ℚ) = 0 →
       generated_potential exampleTable 1 2 = exampleTable.getD 0 0) ∧
     ((1 : ℚ) ≤ 2 →
       npRound (exampleTable.length * 2 / 1) < 65536 →
       generated_potential exampleTable 1 2 =
         exampleTable.getD (exampleTable.length - 1) 0)) :=
  ⟨by simp [exampleTable], by norm_num, by norm_num,
   generated_potential_clamps exampleTable 1 2 (by simp [exampleTable])
     (by norm_num) (by norm_num)⟩

/-! ## Kernel assembly (`update_b_pot`, lines 256-277)

The pairwise source-electrode distance matrix is produced by
`scipy.spatial.distance.cdist` (an external library routine whose outputs are
irrational square roots in general); it enters the embedding as an abstract
matrix `dists` of non-negative rationals.  `b_pot` and `k_pot` are then
assembled exactly as in the source. -/

/-- `self.b_pot = self.generated_potential(dists)` (line 274): elementwise
lookup of the distance table over the distance matrix. -/
def b_pot_of {ns ne : ℕ} (dist_table : List ℚ) (dist_max : ℚ)
    (dists : Matrix (Fin ns) (Fin ne) ℚ) : Matrix (Fin ns) (Fin ne) ℚ :=
  Matrix.of fun s e => generated_potential dist_table dist_max (dists s e)

/-- `self.k_pot = np.dot(self.b_pot.T, self.b_pot); self.k_pot /= self.n_src`
(lines 275-276), written entrywise as the source's matrix product computes
it. -/
def k_pot_of {ns ne : ℕ} (dist_table : List ℚ) (dist_max : ℚ)
    (dists : Matrix (Fin ns) (Fin ne) ℚ) : Matrix (Fin ne) (Fin ne) ℚ :=
  Matrix.of fun e1 e2 =>
    (∑ s, b_pot_of dist_table dist_max dists s e1 *
          b_pot_of dist_table dist_max dists s e2) / ns

/-- C2: after kernel assembly, `k_pot` equals `(b_potᵀ · b_pot) / n_src`, is
symmetric, and is positive-semidefinite; its index type records the shape
`(n_ele, n_ele)`. -/
theorem k_pot_symm_psd {ns ne : ℕ} (dist_table : List ℚ) (dist_max : ℚ)
    (dists : Matrix (Fin ns) (Fin ne) ℚ) :
    k_pot_of dist_table dist_max dists =
      ((ns : ℚ))⁻¹ •
        ((b_pot_of dist_table dist_max dists)ᵀ *
          b_pot_of dist_table dist_max dists) ∧
    (k_pot_of dist_table dist_max dists)ᵀ =
      k_pot_of dist_table dist_max dists ∧
    ∀ v : Fin ne → ℚ,
      0 ≤ Matrix.dotProduct v ((k_pot_of dist_table dist_max dists).mulVec v) := by
  set B := b_pot_of dist_table dist_max dists with hB
  have hformula : k_pot_of dist_table dist_max dists = ((ns : ℚ))⁻¹ • (Bᵀ * B) := by
    ext e1 e2
    simp [k_pot_of, Matrix.mul_apply, Matrix.transpose_apply, hB,
      div_eq_inv_mul]
  refine ⟨hformula, ?_, ?_⟩
  · ext e1 e2
    simp only [Matrix.transpose_apply, k_pot_of, Matrix.of_apply]
    congr 1
    exact Finset.sum_congr rfl fun s _ => mul_comm _ _
  · intro v
    rw [hformula]
    rw [Matrix.smul_mulVec_assoc, Matrix.dotProduct_smul]
    have hBv : 0 ≤ Matrix.dotProduct v ((Bᵀ * B).mulVec v) := by
      rw [← Matrix.mulVec_mulVec, Matrix.dotProduct_mulVec,
        Matrix.vecMul_transpose]
      exact Finset.sum_nonneg fun i _ => mul_self_nonneg _
    have hc : 0 ≤ ((ns : ℚ))⁻¹ := by positivity
    exact smul_nonneg hc hBv

/-! ## Reconstruction (`values`, lines 197-225) -/

/-- `np.linalg.inv` in exact arithmetic: the true inverse when the matrix is
nonsingular; the singular case is handled by the caller (the source raises
`LinAlgError` there). -/
def np_linalg_inv {n : ℕ} (A : Matrix (Fin n) (Fin n) ℚ) :
    Matrix (Fin n) (Fin n) ℚ :=
  if A.det = 0 then 0 else (A.det)⁻¹ • A.adjugate

lemma np_linalg_inv_eq_inv {n : ℕ} (A : Matrix (Fin n) (Fin n) ℚ) :
    np_linalg_inv A = A⁻¹ := by
  unfold np_linalg_inv
  rw [Matrix.inv_def, Ring.inverse_eq_inv]
  split
  · rename_i h
    rw [h]
    simp
  · rfl

/-- The estimator state after `method()` has assembled the kernels: the
measured potentials (`self.pots`, `n_ele × n_time`), the regularization
`self.lambd`, the electrode kernel `self.k_pot`, and the two cross kernels
(`self.k_interp_cross`, `self.k_interp_pot`, `n_estm × n_ele` with
`n_estm = ngx * ngy`). -/
structure KernelState where
  n_ele : ℕ
  n_time : ℕ
  ngx : ℕ
  ngy : ℕ
  pots : Matrix (Fin n_ele) (Fin n_time) ℚ
  lambd : ℚ
  k_pot : Matrix (Fin n_ele) (Fin n_ele) ℚ
  k_interp_cross : Matrix (Fin (ngx * ngy)) (Fin n_ele) ℚ
  k_interp_pot : Matrix (Fin (ngx * ngy)) (Fin n_ele) ℚ

/-- Row-major (C-order) position of grid point `(a, b)` in the flattened
estimation array, as used by `estimation.reshape(ngx, ngy, n_time)`
(line 224). -/
def gridIdx {ngx ngy : ℕ} (a : Fin ngx) (b : Fin ngy) : Fin (ngx * ngy) :=
  ⟨a.1 * ngy + b.1, by
    have ha : a.1 + 1 ≤ ngx := a.2
    have hb : b.1 < ngy := b.2
    calc a.1 * ngy + b.1 < (a.1 + 1) * ngy := by rw [Nat.succ_mul]; omega
      _ ≤ ngx * ngy := Nat.mul_le_mul_right ngy ha⟩

/-- The `if estimate == 'CSD' / elif 'POT' / else` dispatch of lines 210-215.
The `else` branch only prints a message; `estimation_table` is left unbound,
which is modelled by `none`. -/
def estimationTable (st : KernelState) (estimate : String) :
    Option (Matrix (Fin (st.ngx * st.ngy)) (Fin st.n_ele) ℚ) :=
  if estimate = "CSD" then some st.k_interp_cross
  else if estimate = "POT" then some st.k_interp_pot
  else none

/-- `KCSD2D.values` (lines 197-225).  `np.linalg.inv(k_pot + lambd * I)`
raises `LinAlgError` on an exactly singular matrix.  With a valid quantity
tag the per-time-sample loop computes
`estimation[:, t] = estimation_table · (k_inv · pots[:, t])` and the result is
reshaped to `(ngx, ngy, n_time)`.  With an invalid tag, `estimation_table` is
unbound: the first loop iteration raises `UnboundLocalError` — unless there
are no time samples or no electrodes, in which case the loops never touch it
and the zero-initialised `estimation` array is returned. -/
def values (st : KernelState) (estimate : String) :
    Except PyErr (Fin st.ngx → Fin st.ngy → Fin st.n_time → ℚ) :=
  if (st.k_pot + st.lambd • 1).det = 0 then Except.error PyErr.linAlgError
  else
    match estimationTable st estimate with
    | some tab =>
        Except.ok (fun a b t =>
          ∑ i, tab (gridIdx a b) i *
            (∑ j, np_linalg_inv (st.k_pot + st.lambd • 1) i j * st.pots j t))
    | none =>
        if st.n_time = 0 ∨ st.n_ele = 0 then Except.ok (fun _ _ _ => 0)
        else Except.error PyErr.unboundLocal

lemma values_ok_of_table (st : KernelState) (estimate : String)
    (tab : Matrix (Fin (st.ngx * st.ngy)) (Fin st.n_ele) ℚ)
    (htab : estimationTable st estimate = some tab)
    (hdet : (st.k_pot + st.lambd • 1).det ≠ 0) :
    values st estimate = Except.ok (fun a b t =>
      tab.mulVec
        ((st.k_pot + st.lambd • 1)⁻¹.mulVec (fun j => st.pots j t))
        (gridIdx a b)) := by
  unfold values
  rw [if_neg hdet, htab]
  refine congrArg Except.ok ?_
  funext a b t
  rw [← np_linalg_inv_eq_inv]
  simp [Matrix.mulVec, Matrix.dotProduct]

/-- C1: for a valid quantity tag and an invertible regularized kernel, the
reconstruction computes, for each time sample `t`, the coefficients
`beta = (k_pot + lambd·I)⁻¹ · pots[:, t]`, then
`estimate[:, t] = cross_kernel · beta` with the cross kernel selected by the
tag, and returns the result reshaped (row-major) to `(ngx, ngy, n_time)`. -/
theorem values_reconstruction (st : KernelState) (estimate : String)
    (hq : estimate = "CSD" ∨ estimate = "POT")
    (hdet : (st.k_pot + st.lambd • 1).det ≠ 0) :
    values st estimate = Except.ok (fun a b t =>
      (if estimate = "CSD" then st.k_interp_cross else st.k_interp_pot).mulVec
        ((st.k_pot + st.lambd • 1)⁻¹.mulVec (fun j => st.pots j t))
        (gridIdx a b)) := by
  rcases hq with hq | hq
  · subst hq
    rw [if_pos rfl]
    exact values_ok_of_table st "CSD" st.k_interp_cross (by rfl) hdet
  · subst hq
    rw [if_neg (by decide)]
    exact values_ok_of_table st "POT" st.k_interp_pot (by rfl) hdet

/-- C6: for a quantity tag that is neither `'CSD'` nor `'POT'`, on any
configuration with at least one electrode and at least one time sample,
`values` fails with an error surfaced to the caller (never an `ok` numeric
result, never a silent default to a valid quantity). -/
theorem values_invalid_quantity_fails (st : KernelState) (estimate : String)
    (hcsd : estimate ≠ "CSD") (hpot : estimate ≠ "POT")
    (ht : 0 < st.n_time) (he : 0 < st.n_ele) :
    ∃ e, values st estimate = Except.error e := by
  have htab : estimationTable st estimate = none := by
    unfold estimationTable
    rw [if_neg hcsd, if_neg hpot]
  by_cases hdet : (st.k_pot + st.lambd • 1).det = 0
  · exact ⟨PyErr.linAlgError, by unfold values; rw [if_pos hdet]⟩
  · refine ⟨PyErr.unboundLocal, ?_⟩
    unfold values
    rw [if_neg hdet, htab]
    rw [if_neg (by omega)]

/-- Concrete one-electrode, one-sample, one-grid-point estimator state. -/
def stV : KernelState where
  n_ele := 1
  n_time := 1
  ngx := 1
  ngy := 1
  pots := Matrix.of fun _ _ => 4
  lambd := 0
  k_pot := Matrix.of fun _ _ => 2
  k_interp_cross := Matrix.of fun _ _ => 3
  k_interp_pot := Matrix.of fun _ _ => 5

lemma stV_det_ne : (stV.k_pot + stV.lambd • 1).det ≠ 0 := by
  have h : (stV.k_pot + stV.lambd • 1).det = 2 := by
    have : stV.k_pot + stV.lambd • 1 = stV.k_pot := by
      simp [stV]
    rw [this]
    rw [Matrix.det_fin_one]
    rfl
  rw [h]
  norm_num

/-- Witness for C1 at a one-electrode, one-sample, one-point configuration. -/
theorem values_reconstruction_witness :
    (("CSD" = "CSD" ∨ "CSD" = "POT") ∧
      ((stV.k_pot + stV.lambd • 1).det ≠ 0)) ∧
    values stV "CSD" = Except.ok (fun a b t =>
      (if "CSD" = "CSD" then stV.k_interp_cross else stV.k_interp_pot).mulVec
        ((stV.k_pot + stV.lambd • 1)⁻¹.mulVec (fun j => stV.pots j t))
        (gridIdx a b)) :=
  ⟨⟨Or.inl rfl, stV_det_ne⟩,
    values_reconstruction stV "CSD" (Or.inl rfl) stV_det_ne⟩

/-- Witness for C6: the invalid tag `"FOO"` makes `values` fail on a concrete
configuration. -/
theorem values_invalid_quantity_fails_witness :
    ("FOO" ≠ "CSD") ∧ ("FOO" ≠ "POT") ∧
    0 < stV.n_time ∧ 0 < stV.n_ele ∧
    (∃ e, values stV "FOO" = Except.error e) :=
  ⟨by decide, by decide, by decide, by decide,
    values_invalid_quantity_fails stV "FOO" (by decide) (by decide)
      (by decide) (by decide)⟩

lemma dot_linear {n : ℕ} (f : Fin n → ℚ) (aa bb : ℚ) (g1 g2 : Fin n → ℚ) :
    (∑ i, f i * (aa * g1 i + bb * g2 i)) =
      aa * (∑ i, f i * g1 i) + bb * (∑ i, f i * g2 i) := by
  rw [Finset.mul_sum, Finset.mul_sum, ← Finset.sum_add_distrib]
  exact Finset.sum_congr rfl fun i _ => by ring

/-- C8: for fixed kernel matrices and fixed lambda, reconstruction is linear
in the supplied potentials: reconstructing from `aa·P1 + bb·P2` yields
`aa` times the reconstruction from `P1` plus `bb` times the reconstruction
from `P2`, pointwise over the output grid (exact arithmetic). -/
theorem values_linear_in_pots {n T gx gy : ℕ}
    (kp : Matrix (Fin n) (Fin n) ℚ)
    (cross pot : Matrix (Fin (gx * gy)) (Fin n) ℚ)
    (lambd : ℚ) (estimate : String)
    (P1 P2 : Matrix (Fin n) (Fin T) ℚ) (aa bb : ℚ)
    (r1 r2 : Fin gx → Fin gy → Fin T → ℚ)
    (h1 : values ⟨n, T, gx, gy, P1, lambd, kp, cross, pot⟩ estimate =
      Except.ok r1)
    (h2 : values ⟨n, T, gx, gy, P2, lambd, kp, cross, pot⟩ estimate =
      Except.ok r2) :
    values ⟨n, T, gx, gy, aa • P1 + bb • P2, lambd, kp, cross, pot⟩ estimate =
      Except.ok (fun x y t => aa * r1 x y t + bb * r2 x y t) := by
  by_cases hdet : (kp + lambd • (1 : Matrix (Fin n) (Fin n) ℚ)).det = 0
  · have h1' : values (⟨n, T, gx, gy, P1, lambd, kp, cross, pot⟩ :
        KernelState) estimate = Except.error PyErr.linAlgError := by
      unfold values
      rw [if_pos hdet]
    rw [h1'] at h1
    exact absurd h1 (by simp)
  · have key : ∀ (tab : Matrix (Fin (gx * gy)) (Fin n) ℚ)
        (htab : ∀ P : Matrix (Fin n) (Fin T) ℚ, estimationTable
          (⟨n, T, gx, gy, P, lambd, kp, cross, pot⟩ : KernelState) estimate =
          some tab), values
          (⟨n, T, gx, gy, aa • P1 + bb • P2, lambd, kp, cross, pot⟩ :
            KernelState) estimate =
          Except.ok (fun x y t => aa * r1 x y t + bb * r2 x y t) := by
      intro tab htab
      have c1 := values_ok_of_table
        (⟨n, T, gx, gy, P1, lambd, kp, cross, pot⟩ : KernelState)
        estimate tab (htab P1) hdet
      have c2 := values_ok_of_table
        (⟨n, T, gx, gy, P2, lambd, kp, cross, pot⟩ : KernelState)
        estimate tab (htab P2) hdet
      rw [h1] at c1
      rw [h2] at c2
      have e1 := Except.ok.inj c1
      have e2 := Except.ok.inj c2
      rw [values_ok_of_table
        (⟨n, T, gx, gy, aa • P1 + bb • P2, lambd, kp, cross, pot⟩ :
          KernelState) estimate tab (htab _) hdet]
      refine congrArg Except.ok ?_
      funext x y t
      rw [congrFun (congrFun (congrFun e1 x) y) t,
        congrFun (congrFun (congrFun e2 x) y) t]
      have hv : (fun j => (aa • P1 + bb • P2) j t) =
          aa • (fun j => P1 j t) + bb • (fun j => P2 j t) := by
        funext j
        simp [Matrix.add_apply, Matrix.smul_apply]
      show tab.mulVec ((kp + lambd • 1)⁻¹.mulVec
          (fun j => (aa • P1 + bb • P2) j t)) (gridIdx x y) = _
      rw [hv, Matrix.mulVec_add, Matrix.mulVec_smul, Matrix.mulVec_smul,
        Matrix.mulVec_add, Matrix.mulVec_smul, Matrix.mulVec_smul]
      simp [Pi.add_apply, Pi.smul_apply, smul_eq_mul]
    by_cases hcsd : estimate = "CSD"
    · subst hcsd
      exact key cross (fun P => rfl)
    · by_cases hpot : estimate = "POT"
      · subst hpot
        exact key pot (fun P => rfl)
      · have htabn : ∀ P : Matrix (Fin n) (Fin T) ℚ, estimationTable
            (⟨n, T, gx, gy, P, lambd, kp, cross, pot⟩ : KernelState)
            estimate = none := by
          intro P
          unfold estimationTable
          rw [if_neg hcsd, if_neg hpot]
        have veq : ∀ P : Matrix (Fin n) (Fin T) ℚ, values
            (⟨n, T, gx, gy, P, lambd, kp, cross, pot⟩ : KernelState)
            estimate = (if T = 0 ∨ n = 0 then Except.ok (fun _ _ _ => (0 : ℚ))
              else Except.error PyErr.unboundLocal) := by
          intro P
          unfold values
          rw [if_neg hdet, htabn P]
        rw [veq] at h1 h2
        rw [veq]
        by_cases hz : T = 0 ∨ n = 0
        · rw [if_pos hz] at h1 h2 ⊢
          have e1 := Except.ok.inj h1
          have e2 := Except.ok.inj h2
          refine congrArg Except.ok ?_
          funext x y t
          rw [← congrFun (congrFun (congrFun e1 x) y) t,
            ← congrFun (congrFun (congrFun e2 x) y) t]
          ring
        · rw [if_neg hz] at h1
          exact absurd h1 (by simp)

/-- One-electrode state with potentials `P1 = 2`. -/
def stP1 : KernelState :=
  ⟨1, 1, 1, 1, Matrix.of fun _ _ => 2, 0, Matrix.of fun _ _ => 1,
    Matrix.of fun _ _ => 1, Matrix.of fun _ _ => 1⟩

/-- One-electrode state with potentials `P2 = 3`. -/
def stP2 : KernelState :=
  ⟨1, 1, 1, 1, Matrix.of fun _ _ => 3, 0, Matrix.of fun _ _ => 1,
    Matrix.of fun _ _ => 1, Matrix.of fun _ _ => 1⟩

/-- One-electrode state with potentials `5·P1 + 7·P2`. -/
def stP3 : KernelState :=
  ⟨1, 1, 1, 1,
    (5 : ℚ) • (Matrix.of fun _ _ => (2 : ℚ)) +
      (7 : ℚ) • (Matrix.of fun _ _ => (3 : ℚ)),
    0, Matrix.of fun _ _ => 1, Matrix.of fun _ _ => 1,
    Matrix.of fun _ _ => 1⟩

lemma stP_det_ne : (stP1.k_pot + stP1.lambd • 1).det ≠ 0 := by
  have h : (stP1.k_pot + stP1.lambd • 1).det = 1 := by
    have : stP1.k_pot + stP1.lambd • 1 = stP1.k_pot := by
      simp [stP1]
    rw [this]
    rw [Matrix.det_fin_one]
    rfl
  rw [h]
  norm_num

/-- The reconstruction from `P1` alone. -/
noncomputable def rP1 : Fin 1 → Fin 1 → Fin 1 → ℚ := fun a b t =>
  stP1.k_interp_cross.mulVec
    ((stP1.k_pot + stP1.lambd • 1)⁻¹.mulVec (fun j => stP1.pots j t))
    (gridIdx a b)

/-- The reconstruction from `P2` alone. -/
noncomputable def rP2 : Fin 1 → Fin 1 → Fin 1 → ℚ := fun a b t =>
  stP2.k_interp_cross.mulVec
    ((stP2.k_pot + stP2.lambd • 1)⁻¹.mulVec (fun j => stP2.pots j t))
    (gridIdx a b)

/-- Witness for C8 at a concrete one-electrode configuration. -/
theorem values_linear_in_pots_witness :
    values stP1 "CSD" = Except.ok rP1 ∧
    values stP2 "CSD" = Except.ok rP2 ∧
    values stP3 "CSD" =
      Except.ok (fun x y t => 5 * rP1 x y t + 7 * rP2 x y t) := by
  have h1 : values stP1 "CSD" = Except.ok rP1 :=
    values_ok_of_table stP1 "CSD" stP1.k_interp_cross rfl stP_det_ne
  have h2 : values stP2 "CSD" = Except.ok rP2 :=
    values_ok_of_table stP2 "CSD" stP2.k_interp_cross rfl stP_det_ne
  exact ⟨h1, h2,
    values_linear_in_pots (Matrix.of fun _ _ => 1) (Matrix.of fun _ _ => 1)
      (Matrix.of fun _ _ => 1) 0 "CSD" (Matrix.of fun _ _ => 2)
      (Matrix.of fun _ _ => 3) 5 7 rP1 rP2 h1 h2⟩

/-! ## Construction (`__init__` / `parameters` / `place_basis` /
`create_lookup`, lines 30-176 and 227-254)

`CSD.py`, `utility_functions.py` and `basis_functions.py` are not under
`src/`; the parts of them the claims depend on are modelled from the spec and
say so in their doc comments.  `forward_model` wraps `scipy.integrate.dblquad`
(an external adaptive quadrature whose values are transcendental); it enters
the embedding as an abstract function `fwd` from position to potential. -/

/-- The registered 2D basis shapes.  Modelled from the spec:
`basis_functions.basis_2D` is not under `src/`; spec §4.1/§7 fix its keys as
`gauss`, `step`, `gauss_lim`. -/
inductive BasisShape where
  | gauss
  | step
  | gauss_lim
deriving DecidableEq, Repr

/-- Modelled from the spec: the key set of the `basis_functions.basis_2D`
registry (`basis.basis_2D.keys()` at line 158). -/
def basis_2D_keys : List String := ["gauss", "step", "gauss_lim"]

/-- Modelled from the spec: `basis.basis_2D.get(source_type)` (line 162), the
string-keyed dictionary lookup resolving a shape name to its basis
function. -/
def basis_2D_get (s : String) : Option BasisShape :=
  if s = "gauss" then some BasisShape.gauss
  else if s = "step" then some BasisShape.step
  else if s = "gauss_lim" then some BasisShape.gauss_lim
  else none

lemma basis_2D_get_none {s : String} (h : s ∉ basis_2D_keys) :
    basis_2D_get s = none := by
  simp only [basis_2D_keys, List.mem_cons, List.not_mem_nil, or_false,
    not_or] at h
  unfold basis_2D_get
  rw [if_neg h.1, if_neg h.2.1, if_neg h.2.2]

/-- The `**kwargs` dictionary of the constructor.  A Python `**kwargs` accepts
arbitrary keys; the fields here are the keys `parameters()` reads (lines
94-109) plus `dist_table_density`, which the spec lists as a configuration
parameter but which `parameters()` never reads (no `kwargs.get` for it
exists, and `method()` calls `create_lookup()` with its default). -/
structure Kwargs where
  src_type : Option String := none
  sigma : Option ℚ := none
  h : Option ℚ := none
  n_src_init : Option ℕ := none
  ext_x : Option ℚ := none
  ext_y : Option ℚ := none
  lambd : Option ℚ := none
  R_init : Option ℚ := none
  xmin : Option ℚ := none
  xmax : Option ℚ := none
  ymin : Option ℚ := none
  ymax : Option ℚ := none
  gdx : Option ℚ := none
  gdy : Option ℚ := none
  dist_table_density : Option ℕ := none

/-- The configuration fields set by `KCSD2D.parameters` (lines 83-110). -/
structure Params where
  src_type : String
  sigma : ℚ
  h : ℚ
  n_src_init : ℕ
  ext_x : ℚ
  ext_y : ℚ
  lambd : ℚ
  R_init : ℚ
  xmin : ℚ
  xmax : ℚ
  ymin : ℚ
  ymax : ℚ
  gdx : ℚ
  gdy : ℚ

/-- `np.min` over a non-empty list of coordinates. -/
def eleMin (f : ℚ × ℚ → ℚ) (p : ℚ × ℚ) (ps : List (ℚ × ℚ)) : ℚ :=
  ps.foldl (fun acc q => min acc (f q)) (f p)

/-- `np.max` over a non-empty list of coordinates. -/
def eleMax (f : ℚ × ℚ → ℚ) (p : ℚ × ℚ) (ps : List (ℚ × ℚ)) : ℚ :=
  ps.foldl (fun acc q => max acc (f q)) (f p)

/-- `KCSD2D.parameters` (lines 83-110): each configuration key read from
kwargs with its default.  `ele_pos` is `p :: ps` (it must be non-empty for
`np.min`/`np.max` to succeed).  Note the absence of any read of
`dist_table_density`. -/
def parameters (p : ℚ × ℚ) (ps : List (ℚ × ℚ)) (kw : Kwargs) : Params :=
  let xmin := kw.xmin.getD (eleMin Prod.fst p ps)
  let xmax := kw.xmax.getD (eleMax Prod.fst p ps)
  let ymin := kw.ymin.getD (eleMin Prod.snd p ps)
  let ymax := kw.ymax.getD (eleMax Prod.snd p ps)
  { src_type := kw.src_type.getD "gauss"
    sigma := kw.sigma.getD 1
    h := kw.h.getD 1
    n_src_init := kw.n_src_init.getD 1000
    ext_x := kw.ext_x.getD 0
    ext_y := kw.ext_y.getD 0
    lambd := kw.lambd.getD 0
    R_init := kw.R_init.getD (23/100)
    xmin := xmin
    xmax := xmax
    ymin := ymin
    ymax := ymax
    gdx := kw.gdx.getD ((1/100) * (xmax - xmin))
    gdy := kw.gdy.getD ((1/100) * (ymax - ymin)) }

/-- `KCSD2D.place_basis` (lines 137-176): validate the shape name against the
registry, then place the sources and derive `R` and `dist_max`.
`utils.distribute_srcs_2D` is not under `src/`; modelled from the spec
(§4.1): the radius equals the requested `R_init`, and the source mesh spans
the estimation bounds extended by `ext`, which feeds `dist_max =
sqrt(Lx² + Ly²)` with `Lx`/`Ly` the spans plus `R` (lines 171-173). -/
noncomputable def place_basis (par : Params) :
    Except PyErr (BasisShape × ℚ × ℝ) :=
  match basis_2D_get par.src_type with
  | none => Except.error PyErr.configurationError
  | some b =>
    let R := par.R_init
    let Lx : ℚ := ((par.xmax + par.ext_x) - (par.xmin - par.ext_x)) + R
    let Ly : ℚ := ((par.ymax + par.ext_y) - (par.ymin - par.ext_y)) + R
    Except.ok (b, R, Real.sqrt ((Lx : ℝ) ^ 2 + (Ly : ℝ) ^ 2))

/-- Modelled from the spec: `utils.sparse_dist_table(R, dist_max, dt_len)`
(`utility_functions.py` is not under `src/`): a sparse set of sample
positions in table-index units `[0, dt_len]` (spec §4.3).  Only its
participation in the pipeline, not its spacing, is load-bearing here. -/
def sparse_dist_table (R : ℚ) (dist_max : ℝ) (dt_len : ℕ) : List ℕ :=
  List.range (dt_len + 1)

/-- Modelled from the spec: `utils.interpolate_dist_table(xs, vals, dt_len)`
interpolates the sparse samples to a dense table of fixed size `dt_len`
indexed by normalized distance (spec §4.3, "a dense table of fixed size
dist_table_density").  Modelled as nearest-sample selection; the fixed
output length is the load-bearing property. -/
def interpolate_dist_table (xs : List ℕ) (vals : List ℚ) (dt_len : ℕ) :
    List ℚ :=
  (List.range dt_len).map (fun i => vals.getD (i * vals.length / dt_len) 0)

/-- `KCSD2D.create_lookup` (lines 227-254): sample the forward model `fwd` at
the sparse positions `(x / dt_len) * dist_max`, then interpolate to the dense
table. -/
noncomputable def create_lookup_table (fwd : ℝ → ℚ) (R : ℚ) (dist_max : ℝ)
    (dt_len : ℕ) : List ℚ :=
  let xs := sparse_dist_table R dist_max dt_len
  let vals := xs.map (fun x => fwd (((x : ℝ) / dt_len) * dist_max))
  interpolate_dist_table xs vals dt_len

lemma create_lookup_table_length (fwd : ℝ → ℚ) (R : ℚ) (dist_max : ℝ)
    (dt_len : ℕ) : (create_lookup_table fwd R dist_max dt_len).length =
      dt_len := by
  simp [create_lookup_table, interpolate_dist_table]

/-- The state assembled by the constructor (configuration, bound basis shape,
radius, `dist_max`, and the dense distance table).  The kernel matrices built
by the rest of `method()` are modelled separately (`k_pot_of`,
`KernelState`). -/
structure ConstructedState where
  src_type : String
  sigma : ℚ
  h : ℚ
  n_src_init : ℕ
  ext_x : ℚ
  ext_y : ℚ
  lambd : ℚ
  R_init : ℚ
  xmin : ℚ
  xmax : ℚ
  ymin : ℚ
  ymax : ℚ
  gdx : ℚ
  gdy : ℚ
  basis : BasisShape
  R : ℚ
  dist_max : ℝ
  dist_table : List ℚ

/-- `KCSD2D.create_lookup` as the state updater it is in the source
(`self.dist_table = ...`), with the density parameter explicit (its Python
default is 100). -/
noncomputable def create_lookup (fwd : ℝ → ℚ) (st : ConstructedState)
    (dt_len : ℕ) : ConstructedState :=
  { st with dist_table := create_lookup_table fwd st.R st.dist_max dt_len }

/-- Assembles the constructed state from the configuration, the placement
result and the dense table. -/
def mkConstructedState (par : Params) (b : BasisShape) (R : ℚ) (dmax : ℝ)
    (table : List ℚ) : ConstructedState :=
  { src_type := par.src_type
    sigma := par.sigma
    h := par.h
    n_src_init := par.n_src_init
    ext_x := par.ext_x
    ext_y := par.ext_y
    lambd := par.lambd
    R_init := par.R_init
    xmin := par.xmin
    xmax := par.xmax
    ymin := par.ymin
    ymax := par.ymax
    gdx := par.gdx
    gdy := par.gdy
    basis := b
    R := R
    dist_max := dmax
    dist_table := table }

/-- `KCSD2D.__init__` (lines 30-81): `parameters(**kwargs)`, `estimate_at()`,
`place_basis()`, then `method()`, whose first step is `create_lookup()` —
called with no argument, hence with the default density 100.  An empty
`ele_pos` makes `np.min` in `parameters` raise. -/
noncomputable def KCSD2D_init (fwd : ℝ → ℚ) (ele_pos : List (ℚ × ℚ))
    (kw : Kwargs) : Except PyErr ConstructedState :=
  match ele_pos with
  | [] => Except.error PyErr.valueError
  | p :: ps =>
    (place_basis (parameters p ps kw)).map fun brd =>
      mkConstructedState (parameters p ps kw) brd.1 brd.2.1 brd.2.2
        (create_lookup_table fwd brd.2.1 brd.2.2 100)

lemma place_basis_of_none {par : Params}
    (hg : basis_2D_get par.src_type = none) :
    place_basis par = Except.error PyErr.configurationError := by
  unfold place_basis
  rw [hg]

lemma place_basis_of_some {par : Params} {b : BasisShape}
    (hg : basis_2D_get par.src_type = some b) :
    place_basis par = Except.ok (b, par.R_init,
      Real.sqrt
        ((((par.xmax + par.ext_x) - (par.xmin - par.ext_x) + par.R_init : ℚ) :
            ℝ) ^ 2 +
         (((par.ymax + par.ext_y) - (par.ymin - par.ext_y) + par.R_init : ℚ) :
            ℝ) ^ 2)) := by
  unfold place_basis
  rw [hg]

/-- C7: construction fails with a configuration error exactly when the
declared basis-shape name is outside the registered set (before any numeric
state is built); for a registered name it succeeds and binds the
corresponding basis function. -/
theorem place_basis_validates (fwd : ℝ → ℚ) (p : ℚ × ℚ)
    (ps : List (ℚ × ℚ)) (kw : Kwargs) (s : String) (b : BasisShape)
    (hs : kw.src_type = some s) :
    (s ∉ basis_2D_keys →
      KCSD2D_init fwd (p :: ps) kw = Except.error PyErr.configurationError) ∧
    (basis_2D_get s = some b →
      ∃ st, KCSD2D_init fwd (p :: ps) kw = Except.ok st ∧ st.basis = b) := by
  have hsrc : (parameters p ps kw).src_type = s := by
    unfold parameters
    rw [hs]
    rfl
  have hcons : KCSD2D_init fwd (p :: ps) kw =
      (place_basis (parameters p ps kw)).map fun brd =>
        mkConstructedState (parameters p ps kw) brd.1 brd.2.1 brd.2.2
          (create_lookup_table fwd brd.2.1 brd.2.2 100) := rfl
  constructor
  · intro hnot
    have hg : basis_2D_get (parameters p ps kw).src_type = none := by
      rw [hsrc]
      exact basis_2D_get_none hnot
    rw [hcons, place_basis_of_none hg]
    rfl
  · intro hget
    have hg : basis_2D_get (parameters p ps kw).src_type = some b := by
      rw [hsrc]
      exact hget
    rw [hcons, place_basis_of_some hg]
    exact ⟨_, rfl, rfl⟩

/-- Abstract forward model used in concrete instantiations (its values are
irrelevant to the properties at issue). -/
def fwdW : ℝ → ℚ := fun _ => 0

/-- Witness for C7: the registered name `"step"` resolves and binds the step
basis. -/
theorem place_basis_validates_witness :
    (({ src_type := some "step" } : Kwargs).src_type = some "step") ∧
    (("step" ∉ basis_2D_keys →
      KCSD2D_init fwdW ((0, 0) :: []) { src_type := some "step" } =
        Except.error PyErr.configurationError) ∧
     (basis_2D_get "step" = some BasisShape.step →
      ∃ st, KCSD2D_init fwdW ((0, 0) :: []) { src_type := some "step" } =
        Except.ok st ∧ st.basis = BasisShape.step)) :=
  ⟨rfl, place_basis_validates fwdW (0, 0) [] { src_type := some "step" }
    "step" BasisShape.step rfl⟩

/-- C9 (amended): `dist_table_density` is a parameter of the lookup-table
builder `create_lookup` (default 100), not of the constructor: whenever
construction succeeds the dense table has size 100 (whatever
`dist_table_density` kwarg was supplied), and a direct `create_lookup` call
with density `k` builds a table of size `k`. -/
theorem create_lookup_density (fwd : ℝ → ℚ) (p : ℚ × ℚ)
    (ps : List (ℚ × ℚ)) (kw : Kwargs) (b : BasisShape) (k : ℕ)
    (hbasis : basis_2D_get ((parameters p ps kw).src_type) = some b) :
    ∃ st, KCSD2D_init fwd (p :: ps) kw = Except.ok st ∧
      st.dist_table.length = 100 ∧
      ((create_lookup fwd st k).dist_table.length = k) := by
  have hcons : KCSD2D_init fwd (p :: ps) kw =
      (place_basis (parameters p ps kw)).map fun brd =>
        mkConstructedState (parameters p ps kw) brd.1 brd.2.1 brd.2.2
          (create_lookup_table fwd brd.2.1 brd.2.2 100) := rfl
  rw [hcons, place_basis_of_some hbasis]
  exact ⟨_, rfl, create_lookup_table_length _ _ _ _,
    create_lookup_table_length _ _ _ _⟩

/-- Witness for the amended C9 theorem: default shape name, density request
`k = 37` honoured by `create_lookup`. -/
theorem create_lookup_density_witness :
    basis_2D_get ((parameters (0, 0) [] {}).src_type) =
      some BasisShape.gauss ∧
    (∃ st, KCSD2D_init fwdW ((0, 0) :: []) {} = Except.ok st ∧
      st.dist_table.length = 100 ∧
      ((create_lookup fwdW st 37).dist_table.length = 37)) :=
  ⟨rfl, create_lookup_density fwdW (0, 0) [] {} BasisShape.gauss 37 rfl⟩

/-- C9 counterexample: passing `dist_table_density = 50` through the
constructor's kwargs is silently ignored — construction succeeds and builds
the table with the hard default 100, not 50.  The constructor therefore does
not accept `dist_table_density` as a configuration parameter. -/
theorem dist_table_density_ignored_counterexample :
    ∃ st, KCSD2D_init fwdW ((0, 0) :: [])
        { dist_table_density := some 50 } = Except.ok st ∧
      st.dist_table.length = 100 ∧ (100 : ℕ) ≠ 50 := by
  have hcons : KCSD2D_init fwdW ((0, 0) :: []) { dist_table_density := some 50 } =
      (place_basis (parameters (0, 0) []
          { dist_table_density := some 50 })).map fun brd =>
        mkConstructedState (parameters (0, 0) [] { dist_table_density := some 50 })
          brd.1 brd.2.1 brd.2.2
          (create_lookup_table fwdW brd.2.1 brd.2.2 100) := rfl
  have hg : basis_2D_get ((parameters (0, 0) []
      ({ dist_table_density := some 50 } : Kwargs)).src_type) =
      some BasisShape.gauss := rfl
  rw [hcons, place_basis_of_some hg]
  exact ⟨_, rfl, create_lookup_table_length _ _ _ _, by norm_num⟩

/-! ## Cross-validation (`cross_validate` / `compute_cverror`,
lines 440-515)

Potentials and kernels stay in exact rationals; `np.linalg.norm` introduces a
square root, so accumulated errors live in `ℝ`. -/

/-- The leave-one-out fold list of lines 463-468: fold `ii` trains on every
electrode except `ii` and tests on `[ii]`. -/
def index_generator (n : ℕ) : List (List (Fin n) × List (Fin n)) :=
  (List.finRange n).map fun i =>
    ((List.finRange n).filter (fun j => decide (j ≠ i)), [i])

/-- `B_train = k_pot[np.ix_(idx_train, idx_train)]` (line 499). -/
def B_train {n : ℕ} (kpot : Matrix (Fin n) (Fin n) ℚ) (tr : List (Fin n)) :
    Matrix (Fin tr.length) (Fin tr.length) ℚ :=
  Matrix.of fun a b => kpot (tr.get a) (tr.get b)

/-- `B_new = np.matrix(B_train) + lambd * I` (lines 502-503). -/
def B_new {n : ℕ} (kpot : Matrix (Fin n) (Fin n) ℚ) (lambd : ℚ)
    (tr : List (Fin n)) : Matrix (Fin tr.length) (Fin tr.length) ℚ :=
  B_train kpot tr + lambd • 1

/-- `V_train = pots[idx_train]` (line 500). -/
def V_train {n T : ℕ} (pots : Matrix (Fin n) (Fin T) ℚ) (tr : List (Fin n)) :
    Matrix (Fin tr.length) (Fin T) ℚ :=
  Matrix.of fun a t => pots (tr.get a) t

/-- `B_test = k_pot[np.ix_(idx_test, idx_train)]` (line 506). -/
def B_test {n : ℕ} (kpot : Matrix (Fin n) (Fin n) ℚ) (tr te : List (Fin n)) :
    Matrix (Fin te.length) (Fin tr.length) ℚ :=
  Matrix.of fun r ii => kpot (te.get r) (tr.get ii)

/-- The squared Frobenius norm of `V_est - V_test` for one fold
(lines 505-511): `beta_new = B_new.I * V_train`, then
`V_est[:, tt] = sum_ii beta_new[ii, tt] * B_test[:, ii]`, and
`np.linalg.norm(V_est - V_test)` is the square root of this quantity. -/
def fold_err_sq {n T : ℕ} (kpot : Matrix (Fin n) (Fin n) ℚ)
    (pots : Matrix (Fin n) (Fin T) ℚ) (lambd : ℚ)
    (tr te : List (Fin n)) : ℚ :=
  let beta := np_linalg_inv (B_new kpot lambd tr) * V_train pots tr
  ∑ r, ∑ t, ((∑ ii, beta ii t * B_test kpot tr te r ii) -
    pots (te.get r) t) ^ 2

/-- `KCSD2D.compute_cverror` (lines 484-515).  The `try` block adds
`np.linalg.norm(V_est - V_test)` to the accumulator; the `except LinAlgError`
branch (an exactly singular `B_new` in this model) executes
`err = 10000.` — an ASSIGNMENT that replaces the accumulated error. -/
noncomputable def compute_cverror {n T : ℕ}
    (kpot : Matrix (Fin n) (Fin n) ℚ) (pots : Matrix (Fin n) (Fin T) ℚ)
    (lambd : ℚ) (folds : List (List (Fin n) × List (Fin n))) : ℝ :=
  folds.foldl
    (fun err f =>
      if (B_new kpot lambd f.1).det = 0 then (10000 : ℝ)
      else err + Real.sqrt ((fold_err_sq kpot pots lambd f.1 f.2 : ℚ) : ℝ))
    0

/-- Follows the SPEC's words, not the source (refinement model for C5): a
singular fold contributes the sentinel 10000 "for that fold (and only that
fold) while the accumulated error of the other folds is preserved". -/
noncomputable def compute_cverror_specmodel {n T : ℕ}
    (kpot : Matrix (Fin n) (Fin n) ℚ) (pots : Matrix (Fin n) (Fin T) ℚ)
    (lambd : ℚ) (folds : List (List (Fin n) × List (Fin n))) : ℝ :=
  folds.foldl
    (fun err f =>
      err + if (B_new kpot lambd f.1).det = 0 then (10000 : ℝ)
        else Real.sqrt ((fold_err_sq kpot pots lambd f.1 f.2 : ℚ) : ℝ))
    0

lemma compute_cverror_foldl_nonsingular {n T : ℕ}
    (kpot : Matrix (Fin n) (Fin n) ℚ) (pots : Matrix (Fin n) (Fin T) ℚ)
    (lambd : ℚ) (post : List (List (Fin n) × List (Fin n))) (x : ℝ)
    (hpost : ∀ g ∈ post, (B_new kpot lambd g.1).det ≠ 0) :
    post.foldl
      (fun err f =>
        if (B_new kpot lambd f.1).det = 0 then (10000 : ℝ)
        else err + Real.sqrt ((fold_err_sq kpot pots lambd f.1 f.2 : ℚ) : ℝ))
      x =
    x + (post.map (fun g =>
      Real.sqrt ((fold_err_sq kpot pots lambd g.1 g.2 : ℚ) : ℝ))).sum := by
  induction post generalizing x with
  | nil => simp
  | cons g gs ih =>
      rw [List.foldl_cons, if_neg (hpost g (List.mem_cons_self g gs)),
        ih _ (fun g' hg' => hpost g' (List.mem_cons_of_mem g hg')),
        List.map_cons, List.sum_cons]
      ring

/-- C5 (amended): when a fold's training sub-kernel is singular under the
given lambda, the accumulator is RESET to the sentinel 10000 — the
accumulated error of all earlier folds is discarded, not preserved — and
the errors of the following folds are added on top of the sentinel; the
search continues rather than propagating the failure. -/
theorem compute_cverror_singular_resets {n T : ℕ}
    (kpot : Matrix (Fin n) (Fin n) ℚ) (pots : Matrix (Fin n) (Fin T) ℚ)
    (lambd : ℚ) (pre post : List (List (Fin n) × List (Fin n)))
    (f : List (Fin n) × List (Fin n))
    (hsing : (B_new kpot lambd f.1).det = 0)
    (hpost : ∀ g ∈ post, (B_new kpot lambd g.1).det ≠ 0) :
    compute_cverror kpot pots lambd (pre ++ f :: post) =
      10000 + (post.map (fun g =>
        Real.sqrt ((fold_err_sq kpot pots lambd g.1 g.2 : ℚ) : ℝ))).sum := by
  unfold compute_cverror
  rw [List.foldl_append, List.foldl_cons, if_pos hsing]
  exact compute_cverror_foldl_nonsingular kpot pots lambd post 10000 hpost

/-- Concrete 3-electrode kernel whose middle leave-one-out fold (training on
electrodes 0 and 2) is singular while the other folds are not. -/
def kpotC5 : Matrix (Fin 3) (Fin 3) ℚ := !![1, 0, 1; 0, 1, 0; 1, 0, 1]

/-- Concrete potentials for the 3-electrode example (one time sample). -/
def potsC5 : Matrix (Fin 3) (Fin 1) ℚ := !![2; 1; 1]

lemma index_generator_three :
    index_generator 3 = [([1, 2], [0]), ([0, 2], [1]), ([0, 1], [2])] := by
  decide

lemma get_list12 : (([1, 2] : List (Fin 3)).get : Fin 2 → Fin 3) = ![1, 2] := by
  funext i
  fin_cases i <;> rfl

lemma get_list02 : (([0, 2] : List (Fin 3)).get : Fin 2 → Fin 3) = ![0, 2] := by
  funext i
  fin_cases i <;> rfl

lemma get_list01 : (([0, 1] : List (Fin 3)).get : Fin 2 → Fin 3) = ![0, 1] := by
  funext i
  fin_cases i <;> rfl

lemma BnewC5_f0 : B_new kpotC5 0 ([1, 2] : List (Fin 3)) = !![1, 0; 0, 1] := by
  ext a b
  fin_cases a <;> fin_cases b <;>
    simp [B_new, B_train, kpotC5, Matrix.one_apply, get_list12]

lemma BnewC5_f1 : B_new kpotC5 0 ([0, 2] : List (Fin 3)) = !![1, 1; 1, 1] := by
  ext a b
  fin_cases a <;> fin_cases b <;>
    simp [B_new, B_train, kpotC5, Matrix.one_apply, get_list02]

lemma BnewC5_f2 : B_new kpotC5 0 ([0, 1] : List (Fin 3)) = !![1, 0; 0, 1] := by
  ext a b
  fin_cases a <;> fin_cases b <;>
    simp [B_new, B_train, kpotC5, Matrix.one_apply, get_list01]

lemma id2_eq_one : (!![1, 0; 0, 1] : Matrix (Fin 2) (Fin 2) ℚ) = 1 := by
  ext a b
  fin_cases a <;> fin_cases b <;> simp [Matrix.one_apply]

lemma detC5_f0 : ¬((B_new kpotC5 0 ([1, 2] : List (Fin 3))).det = 0) := by
  rw [BnewC5_f0, Matrix.det_fin_two_of]
  norm_num

lemma detC5_f1 : (B_new kpotC5 0 ([0, 2] : List (Fin 3))).det = 0 := by
  rw [BnewC5_f1, Matrix.det_fin_two_of]
  norm_num

lemma detC5_f2 : ¬((B_new kpotC5 0 ([0, 1] : List (Fin 3))).det = 0) := by
  rw [BnewC5_f2, Matrix.det_fin_two_of]
  norm_num

lemma fold_err_sq_f0 : fold_err_sq kpotC5 potsC5 0 [1, 2] [0] = 1 := by
  simp only [fold_err_sq]
  rw [BnewC5_f0, id2_eq_one, np_linalg_inv_eq_inv, inv_one, Matrix.one_mul]
  simp [Fin.sum_univ_succ, V_train, B_test, potsC5, kpotC5, get_list12]
  norm_num [Matrix.vecHead, Matrix.vecTail]

lemma fold_err_sq_f2 : fold_err_sq kpotC5 potsC5 0 [0, 1] [2] = 1 := by
  simp only [fold_err_sq]
  rw [BnewC5_f2, id2_eq_one, np_linalg_inv_eq_inv, inv_one, Matrix.one_mul]
  simp [Fin.sum_univ_succ, V_train, B_test, potsC5, kpotC5, get_list01]
  norm_num [Matrix.vecHead, Matrix.vecTail]

/-- C5 counterexample: on the 3-electrode example with `lambd = 0`, fold 0
contributes error 1, fold 1 is singular, and fold 2 contributes error 1.
The code returns `10001` (the singular fold RESETS the accumulator,
discarding fold 0's error), while the specified per-fold-sentinel-with-
preserved-accumulation behaviour would return `1 + 10000 + 1 = 10002`. -/
theorem compute_cverror_reset_counterexample :
    compute_cverror kpotC5 potsC5 0 (index_generator 3) = 10001 ∧
    compute_cverror_specmodel kpotC5 potsC5 0 (index_generator 3) = 10002 ∧
    (10001 : ℝ) ≠ 10002 := by
  refine ⟨?_, ?_, by norm_num⟩
  · rw [index_generator_three]
    unfold compute_cverror
    simp only [List.foldl_cons, List.foldl_nil, detC5_f0, detC5_f1, detC5_f2,
      if_true, if_false, ite_true, ite_false, eq_self_iff_true]
    rw [fold_err_sq_f2]
    rw [Rat.cast_one, Real.sqrt_one]
    norm_num
  · rw [index_generator_three]
    unfold compute_cverror_specmodel
    simp only [List.foldl_cons, List.foldl_nil]
    rw [if_neg detC5_f0, if_pos detC5_f1, if_neg detC5_f2]
    rw [fold_err_sq_f0, fold_err_sq_f2]
    rw [Rat.cast_one, Real.sqrt_one]
    norm_num

/-- Witness for the amended C5 theorem on the concrete 3-electrode
example. -/
theorem compute_cverror_singular_resets_witness :
    ((B_new kpotC5 0 (([0, 2], ([1] : List (Fin 3))) :
        List (Fin 3) × List (Fin 3)).1).det = 0) ∧
    (∀ g ∈ [(([0, 1] : List (Fin 3)), ([2] : List (Fin 3)))],
      (B_new kpotC5 0 g.1).det ≠ 0) ∧
    compute_cverror kpotC5 potsC5 0
        ([([1, 2], [0])] ++ ([0, 2], [1]) :: [([0, 1], [2])]) =
      10000 + (([(([0, 1] : List (Fin 3)), ([2] : List (Fin 3)))].map
        (fun g =>
          Real.sqrt ((fold_err_sq kpotC5 potsC5 0 g.1 g.2 : ℚ) : ℝ))).sum) :=
  ⟨detC5_f1, by
      intro g hg
      rw [List.mem_singleton] at hg
      subst hg
      exact detC5_f2,
    compute_cverror_singular_resets kpotC5 potsC5 0 [([1, 2], [0])]
      [([0, 1], [2])] (([0, 2], [1])) detC5_f1 (by
        intro g hg
        rw [List.mem_singleton] at hg
        subst hg
        exact detC5_f2)⟩

/-- The estimator state as `cross_validate` sees it.  `update_R` triggers the
full deterministic rebuild chain (`dist_max`, `create_lookup`,
`update_b_pot`, ...) for a fixed geometry; that chain, which passes through
external quadrature, is modelled by the oracle `kernelOfR`, recording that
`k_pot` is a function of `R` alone once electrodes and grid are fixed. -/
structure CVState where
  n_ele : ℕ
  n_time : ℕ
  pots : Matrix (Fin n_ele) (Fin n_time) ℚ
  R : ℚ
  lambd : ℚ
  cv_error : Option ℝ
  kernelOfR : ℚ → Matrix (Fin n_ele) (Fin n_ele) ℚ
  k_pot : Matrix (Fin n_ele) (Fin n_ele) ℚ

/-- `KCSD2D.update_R` (lines 408-424): set `R` and rebuild the kernels. -/
def update_R (st : CVState) (Rp : ℚ) : CVState :=
  { st with R := Rp, k_pot := st.kernelOfR Rp }

/-- `KCSD2D.update_lambda` (lines 426-438). -/
def update_lambda (st : CVState) (lambdp : ℚ) : CVState :=
  { st with lambd := lambdp }

/-- `np.min` over a list of reals (the source applies it to a non-empty
error matrix; the `[]` case is dead in every use below). -/
noncomputable def list_min : List ℝ → ℝ
  | [] => 0
  | [a] => a
  | a :: b :: rest => min a (list_min (b :: rest))

lemma list_min_le {l : List ℝ} {x : ℝ} (hx : x ∈ l) : list_min l ≤ x := by
  induction l with
  | nil => simp at hx
  | cons a rest ih =>
    cases rest with
    | nil =>
        rw [List.mem_singleton] at hx
        subst hx
        exact le_of_eq rfl
    | cons b rest2 =>
        rcases List.mem_cons.1 hx with h | h
        · subst h
          exact min_le_left _ _
        · exact le_trans (min_le_right _ _) (ih h)

lemma list_min_mem {l : List ℝ} (hl : l ≠ []) : list_min l ∈ l := by
  induction l with
  | nil => exact absurd rfl hl
  | cons a rest ih =>
    cases rest with
    | nil => exact List.mem_singleton.2 rfl
    | cons b rest2 =>
        rcases min_choice a (list_min (b :: rest2)) with h | h
        · rw [show list_min (a :: b :: rest2) = min a (list_min (b :: rest2))
            from rfl, h]
          exact List.mem_cons_self _ _
        · rw [show list_min (a :: b :: rest2) = min a (list_min (b :: rest2))
            from rfl, h]
          exact List.mem_cons_of_mem a (ih (List.cons_ne_nil _ _))

/-- The row-major enumeration of `(R index, lambda index)` cells, matching
the order in which `np.where(errs == np.min(errs))` reports positions
(line 475), whose first entries are taken at lines 476-477. -/
def pairs_rowmajor (nR nL : ℕ) : List (ℕ × ℕ) :=
  (List.range nR).flatMap fun i => (List.range nL).map fun j => (i, j)

lemma mem_pairs_rowmajor {nR nL : ℕ} {p : ℕ × ℕ} :
    p ∈ pairs_rowmajor nR nL ↔ p.1 < nR ∧ p.2 < nL := by
  unfold pairs_rowmajor
  constructor
  · intro hp
    obtain ⟨i, hi, hp2⟩ := List.mem_flatMap.1 hp
    obtain ⟨j, hj, hp3⟩ := List.mem_map.1 hp2
    rw [← hp3]
    exact ⟨List.mem_range.1 hi, List.mem_range.1 hj⟩
  · intro ⟨h1, h2⟩
    refine List.mem_flatMap.2 ⟨p.1, List.mem_range.2 h1, ?_⟩
    exact List.mem_map.2 ⟨p.2, List.mem_range.2 h2, rfl⟩

lemma find?_eq_some_of_exists {α : Type} (p : α → Bool) (l : List α)
    (h : ∃ x ∈ l, p x = true) : ∃ q, l.find? p = some q := by
  induction l with
  | nil =>
      obtain ⟨x, hx, _⟩ := h
      simp at hx
  | cons a t ih =>
      by_cases hpa : p a = true
      · exact ⟨a, List.find?_cons_of_pos _ hpa⟩
      · obtain ⟨x, hx, hpx⟩ := h
        rcases List.mem_cons.1 hx with rfl | hx'
        · exact absurd hpx hpa
        · obtain ⟨q, hq⟩ := ih ⟨x, hx', hpx⟩
          refine ⟨q, ?_⟩
          rw [List.find?_cons_of_neg _ (by simpa using hpa)]
          exact hq

/-- The per-cell cross-validation error of the `(R, lambda)` grid search
(lines 469-474): for cell `(ri, li)` the kernels are rebuilt for
`Rs[ri]` (`update_R`) and `compute_cverror` is run with `lambdas[li]` over
the leave-one-out folds. -/
noncomputable def errs_fun (st : CVState) (lambdas Rs : List ℚ)
    (ri li : ℕ) : ℝ :=
  compute_cverror (st.kernelOfR (Rs.getD ri 0)) st.pots (lambdas.getD li 0)
    (index_generator st.n_ele)

/-- The flattened (row-major) error matrix `errs`. -/
noncomputable def errs_cells (st : CVState) (lambdas Rs : List ℚ) : List ℝ :=
  (pairs_rowmajor Rs.length lambdas.length).map fun p =>
    errs_fun st lambdas Rs p.1 p.2

open Classical in
/-- The first row-major cell achieving the minimal error:
`np.where(errs == np.min(errs))`, first entries (lines 475-477). -/
noncomputable def cv_argmin (st : CVState) (lambdas Rs : List ℚ) : ℕ × ℕ :=
  ((pairs_rowmajor Rs.length lambdas.length).find? fun p =>
    decide (errs_fun st lambdas Rs p.1 p.2 =
      list_min (errs_cells st lambdas Rs))).getD (0, 0)

/-- `KCSD2D.cross_validate` (lines 440-482) after the default-resolution of
lines 458-461 (modelled separately over `ℝ` by `resolve_lambdas` /
`resolve_Rs` below, since the default lambda grid is irrational): sweep the
`(R, lambda)` grid, pick the first row-major cell of minimal error, store
the minimal error in `self.cv_error`, apply the winning `R` (full kernel
rebuild) and `lambda` to the state, and return the PAIR
`(cv_R, cv_lambda)` — the minimal error itself is not part of the return
value (line 482: `return cv_R, cv_lambda`). -/
noncomputable def cross_validate (st : CVState) (lambdas Rs : List ℚ) :
    (ℚ × ℚ) × CVState :=
  ((Rs.getD (cv_argmin st lambdas Rs).1 0,
    lambdas.getD (cv_argmin st lambdas Rs).2 0),
   update_lambda
     (update_R
       { st with cv_error := some (list_min (errs_cells st lambdas Rs)) }
       (Rs.getD (cv_argmin st lambdas Rs).1 0))
     (lambdas.getD (cv_argmin st lambdas Rs).2 0))

/-- C4 (amended): for non-empty (post-resolution) search grids,
`cross_validate` returns the pair `(best_R, best_lambda)` — a first
row-major argmin cell of the error grid — stores the minimal
cross-validation error in the `cv_error` attribute (it is NOT part of the
return value), and mutates the active configuration to the winning
`(R, lambda)`, rebuilding `k_pot` for the winning `R`. -/
theorem cross_validate_returns_argmin (st : CVState) (lambdas Rs : List ℚ)
    (hl : lambdas ≠ []) (hR : Rs ≠ []) :
    ∃ i j, i < Rs.length ∧ j < lambdas.length ∧
      (cross_validate st lambdas Rs).1 = (Rs.getD i 0, lambdas.getD j 0) ∧
      (cross_validate st lambdas Rs).2.cv_error =
        some (errs_fun st lambdas Rs i j) ∧
      (∀ ip jp, ip < Rs.length → jp < lambdas.length →
        errs_fun st lambdas Rs i j ≤ errs_fun st lambdas Rs ip jp) ∧
      (cross_validate st lambdas Rs).2.R = Rs.getD i 0 ∧
      (cross_validate st lambdas Rs).2.lambd = lambdas.getD j 0 ∧
      (cross_validate st lambdas Rs).2.k_pot =
        st.kernelOfR (Rs.getD i 0) := by
  have hmemcell : errs_fun st lambdas Rs 0 0 ∈ errs_cells st lambdas Rs := by
    refine List.mem_map.2 ⟨(0, 0), ?_, rfl⟩
    exact mem_pairs_rowmajor.2
      ⟨List.length_pos.2 hR, List.length_pos.2 hl⟩
  have hcellsne : errs_cells st lambdas Rs ≠ [] :=
    List.ne_nil_of_mem hmemcell
  have hmem := list_min_mem hcellsne
  obtain ⟨p, hp, hpe⟩ := List.mem_map.1 hmem
  obtain ⟨q, hq⟩ := find?_eq_some_of_exists
    (fun p => decide (errs_fun st lambdas Rs p.1 p.2 =
      list_min (errs_cells st lambdas Rs)))
    (pairs_rowmajor Rs.length lambdas.length)
    ⟨p, hp, by simpa using hpe⟩
  have hqp : errs_fun st lambdas Rs q.1 q.2 =
      list_min (errs_cells st lambdas Rs) := by
    have := List.find?_some hq
    simpa using this
  have hqmem := mem_pairs_rowmajor.1 (List.mem_of_find?_eq_some hq)
  have hargmin : cv_argmin st lambdas Rs = q := by
    unfold cv_argmin
    rw [hq]
    rfl
  refine ⟨q.1, q.2, hqmem.1, hqmem.2, ?_, ?_, ?_, ?_, ?_, ?_⟩
  · show (Rs.getD (cv_argmin st lambdas Rs).1 0,
      lambdas.getD (cv_argmin st lambdas Rs).2 0) = _
    rw [hargmin]
  · show some (list_min (errs_cells st lambdas Rs)) = _
    rw [← hqp]
  · intro ip jp hip hjp
    rw [hqp]
    exact list_min_le (List.mem_map.2
      ⟨(ip, jp), mem_pairs_rowmajor.2 ⟨hip, hjp⟩, rfl⟩)
  · show Rs.getD (cv_argmin st lambdas Rs).1 0 = _
    rw [hargmin]
  · show lambdas.getD (cv_argmin st lambdas Rs).2 0 = _
    rw [hargmin]
  · show st.kernelOfR (Rs.getD (cv_argmin st lambdas Rs).1 0) = _
    rw [hargmin]

/-- Concrete 2-electrode kernel (the identity). -/
def kpotC4 : Matrix (Fin 2) (Fin 2) ℚ := !![1, 0; 0, 1]

/-- Concrete potentials for the 2-electrode example. -/
def potsC4 : Matrix (Fin 2) (Fin 1) ℚ := !![3; 3]

/-- Concrete 2-electrode cross-validation state.  `kernelOfR` is constant
(the kernel a rebuild would produce does not depend on `R` here). -/
def stC4 : CVState :=
  { n_ele := 2
    n_time := 1
    pots := potsC4
    R := 1
    lambd := 5
    cv_error := none
    kernelOfR := fun _ => kpotC4
    k_pot := kpotC4 }

lemma index_generator_two :
    index_generator 2 = [([1], [0]), ([0], [1])] := by
  decide

lemma get_single1 : (([1] : List (Fin 2)).get : Fin 1 → Fin 2) = ![1] := by
  funext i
  fin_cases i
  rfl

lemma get_single0 : (([0] : List (Fin 2)).get : Fin 1 → Fin 2) = ![0] := by
  funext i
  fin_cases i
  rfl

lemma one1_eq_one : (!![1] : Matrix (Fin 1) (Fin 1) ℚ) = 1 := by
  ext a b
  fin_cases a
  fin_cases b
  simp [Matrix.one_apply]

lemma BnewC4_a : B_new kpotC4 0 ([1] : List (Fin 2)) = !![1] := by
  ext a b
  fin_cases a
  fin_cases b
  simp [B_new, B_train, kpotC4, get_single1]

lemma BnewC4_b : B_new kpotC4 0 ([0] : List (Fin 2)) = !![1] := by
  ext a b
  fin_cases a
  fin_cases b
  simp [B_new, B_train, kpotC4, get_single0]

lemma detC4_a : ¬((B_new kpotC4 0 ([1] : List (Fin 2))).det = 0) := by
  rw [BnewC4_a, Matrix.det_fin_one_of]
  norm_num

lemma detC4_b : ¬((B_new kpotC4 0 ([0] : List (Fin 2))).det = 0) := by
  rw [BnewC4_b, Matrix.det_fin_one_of]
  norm_num

lemma fold_err_sq_C4_a : fold_err_sq kpotC4 potsC4 0 [1] [0] = 9 := by
  simp only [fold_err_sq]
  rw [BnewC4_a, one1_eq_one, np_linalg_inv_eq_inv, inv_one, Matrix.one_mul]
  simp [Fin.sum_univ_one, V_train, B_test, potsC4, kpotC4, get_single1,
    get_single0]
  norm_num [Matrix.vecHead, Matrix.vecTail]

lemma fold_err_sq_C4_b : fold_err_sq kpotC4 potsC4 0 [0] [1] = 9 := by
  simp only [fold_err_sq]
  rw [BnewC4_b, one1_eq_one, np_linalg_inv_eq_inv, inv_one, Matrix.one_mul]
  simp [Fin.sum_univ_one, V_train, B_test, potsC4, kpotC4, get_single1,
    get_single0]
  norm_num [Matrix.vecHead, Matrix.vecTail]

lemma errs_fun_C4 : errs_fun stC4 [0] [1] 0 0 = 6 := by
  unfold errs_fun
  show compute_cverror kpotC4 potsC4 0 (index_generator 2) = 6
  rw [index_generator_two]
  unfold compute_cverror
  simp only [List.foldl_cons, List.foldl_nil]
  rw [if_neg detC4_a, if_neg detC4_b, fold_err_sq_C4_a, fold_err_sq_C4_b]
  have h9 : ((9 : ℚ) : ℝ) = 3 ^ 2 := by norm_num
  rw [h9, Real.sqrt_sq (by norm_num)]
  norm_num

lemma errs_cells_C4 :
    errs_cells stC4 [0] [1] = [errs_fun stC4 [0] [1] 0 0] := by
  unfold errs_cells
  rfl

lemma list_min_C4 :
    list_min (errs_cells stC4 [0] [1]) = errs_fun stC4 [0] [1] 0 0 := by
  rw [errs_cells_C4]
  rfl

lemma cv_argmin_C4 : cv_argmin stC4 [0] [1] = (0, 0) := by
  unfold cv_argmin
  rw [show pairs_rowmajor ([1] : List ℚ).length ([0] : List ℚ).length =
    [(0, 0)] from by decide]
  rw [List.find?_cons_of_pos _ (by
    simp only [decide_eq_true_eq]
    exact list_min_C4.symm)]
  rfl

/-- C4 counterexample: on a concrete 2-electrode search over
`lambdas = [0]`, `Rs = [1]`, the minimal cross-validation error is `6`, the
call returns only the PAIR `(1, 0)` = `(best_R, best_lambda)` while `6` is
stored in the `cv_error` attribute; neither returned component is the
error (`1 ≠ 6`, `0 ≠ 6`).  So `cross_validate` does not return the triple
`(best_R, best_lambda, best_error)` the claim describes. -/
theorem cross_validate_pair_counterexample :
    (cross_validate stC4 [0] [1]).1 = ((1 : ℚ), (0 : ℚ)) ∧
    (cross_validate stC4 [0] [1]).2.cv_error = some (6 : ℝ) ∧
    ((1 : ℝ) ≠ 6 ∧ (0 : ℝ) ≠ 6) := by
  refine ⟨?_, ?_, by norm_num, by norm_num⟩
  · show (([1] : List ℚ).getD (cv_argmin stC4 [0] [1]).1 0,
      ([0] : List ℚ).getD (cv_argmin stC4 [0] [1]).2 0) = _
    rw [cv_argmin_C4]
    rfl
  · show some (list_min (errs_cells stC4 [0] [1])) = _
    rw [list_min_C4, errs_fun_C4]

/-- Witness for the amended C4 theorem on the concrete 2-electrode
search. -/
theorem cross_validate_returns_argmin_witness :
    (([0] : List ℚ) ≠ [] ∧ ([1] : List ℚ) ≠ []) ∧
    (∃ i j, i < ([1] : List ℚ).length ∧ j < ([0] : List ℚ).length ∧
      (cross_validate stC4 [0] [1]).1 =
        (([1] : List ℚ).getD i 0, ([0] : List ℚ).getD j 0) ∧
      (cross_validate stC4 [0] [1]).2.cv_error =
        some (errs_fun stC4 [0] [1] i j) ∧
      (∀ ip jp, ip < ([1] : List ℚ).length → jp < ([0] : List ℚ).length →
        errs_fun stC4 [0] [1] i j ≤ errs_fun stC4 [0] [1] ip jp) ∧
      (cross_validate stC4 [0] [1]).2.R = ([1] : List ℚ).getD i 0 ∧
      (cross_validate stC4 [0] [1]).2.lambd = ([0] : List ℚ).getD j 0 ∧
      (cross_validate stC4 [0] [1]).2.k_pot =
        stC4.kernelOfR (([1] : List ℚ).getD i 0)) :=
  ⟨⟨List.cons_ne_nil _ _, List.cons_ne_nil _ _⟩,
    cross_validate_returns_argmin stC4 [0] [1]
      (List.cons_ne_nil _ _) (List.cons_ne_nil _ _)⟩

/-! ## Default search grids (`cross_validate` lines 458-461) -/

/-- `np.logspace(-2, -25, 25, base=10.)`: the default lambda grid, 25
log-spaced values from `10^-2` down to `10^-25`. -/
noncomputable def np_logspace_m2_m25 : List ℝ :=
  (List.range 25).map fun k =>
    (10 : ℝ) ^ ((-2 : ℝ) + ((-23 : ℝ) / 24) * (k : ℝ))

open Classical in
/-- Lines 458-459: `if not np.any(lambdas): lambdas = np.logspace(...)`.
`np.any` is numpy truthiness — `False` for `None` (absent argument) and for
an array whose entries are all zero. -/
noncomputable def resolve_lambdas (lambdas : Option (List ℝ)) : List ℝ :=
  match lambdas with
  | none => np_logspace_m2_m25
  | some l => if ∃ x ∈ l, x ≠ 0 then l else np_logspace_m2_m25

open Classical in
/-- Lines 460-461: `if not np.any(Rs): Rs = np.array((self.R)).flatten()`. -/
noncomputable def resolve_Rs (R : ℝ) (Rs : Option (List ℝ)) : List ℝ :=
  match Rs with
  | none => [R]
  | some l => if ∃ x ∈ l, x ≠ 0 then l else [R]

/-- C10: the `lambdas` / `Rs` arguments count as "unspecified" exactly when
no entry of them is truthy: an all-zero `lambdas` array (including `[0.0]`)
is replaced by the default grid `logspace(-2, -25, 25)` — identical to
passing nothing — so a regularization value of exactly `0` can never be
deliberately searched on its own (the default grid contains no zero); an
all-zero `Rs` array is likewise replaced by the default `[self.R]`. -/
theorem cross_validate_truthiness_defaults (l r : List ℝ) (R : ℝ)
    (hl : ∀ x ∈ l, x = 0) (hr : ∀ x ∈ r, x = 0) :
    resolve_lambdas (some l) = np_logspace_m2_m25 ∧
    resolve_lambdas none = np_logspace_m2_m25 ∧
    resolve_Rs R (some r) = [R] ∧
    resolve_Rs R none = [R] ∧
    (0 : ℝ) ∉ np_logspace_m2_m25 := by
  refine ⟨?_, rfl, ?_, rfl, ?_⟩
  · show (if ∃ x ∈ l, x ≠ 0 then l else np_logspace_m2_m25) =
      np_logspace_m2_m25
    rw [if_neg]
    push_neg
    exact hl
  · show (if ∃ x ∈ r, x ≠ 0 then r else [R]) = [R]
    rw [if_neg]
    push_neg
    exact hr
  · intro hmem
    unfold np_logspace_m2_m25 at hmem
    obtain ⟨k, _, hk⟩ := List.mem_map.1 hmem
    have hpos : (0 : ℝ) <
        (10 : ℝ) ^ ((-2 : ℝ) + ((-23 : ℝ) / 24) * (k : ℝ)) :=
      Real.rpow_pos_of_pos (by norm_num) _
    rw [hk] at hpos
    exact lt_irrefl 0 hpos

/-- Witness for C10 at the one-element all-zero arrays. -/
theorem cross_validate_truthiness_defaults_witness :
    ((∀ x ∈ ([0] : List ℝ), x = 0) ∧ (∀ x ∈ ([0] : List ℝ), x = 0)) ∧
    (resolve_lambdas (some [0]) = np_logspace_m2_m25 ∧
     resolve_lambdas none = np_logspace_m2_m25 ∧
     resolve_Rs 1 (some [0]) = [(1 : ℝ)] ∧
     resolve_Rs 1 none = [(1 : ℝ)] ∧
     (0 : ℝ) ∉ np_logspace_m2_m25) :=
  ⟨⟨by simp, by simp⟩,
    cross_validate_truthiness_defaults [0] [0] 1 (by simp) (by simp)⟩

end KCSD2D
